import Mathlib

/-!
Verification of the CoreLock periodic-execution engine (corelock.c /
corelock.h) against its natural-language specification.

The C sources are shallowly embedded: `struct timespec` becomes a pair of
integers, the atomic flags of `struct cl_instanse_s` become `Bool` fields of
an explicit state record, and the worker thread `thread_fn` becomes a
fuel-indexed executable loop over an environment supplying the task's return
values, the monotonic clock readings and the externally delivered stop
requests.  All machine integers (`long long`, `time_t`, `long`) are modelled
as `Int`; the quantities involved (monotonic timestamps, periods in
microseconds) are far below the 64-bit overflow range, so wrap-around is not
modelled.  C's truncating `/` and `%` agree with Lean's Euclidean `/` and `%`
on the non-negative operands that occur in the embedded code.
-/

namespace Corelock

/-- Nanoseconds per second, the constant 1000000000LL of corelock.c. -/
def NSEC_PER_SEC : Int := 1000000000

/-- Shallow embedding of `struct timespec`: `tv_sec` and `tv_nsec` as
integers. -/
structure Timespec where
  sec : Int
  nsec : Int
deriving DecidableEq, Repr

/-- Total value of a timestamp in nanoseconds (specification-side view used
to state exactness of the C arithmetic). -/
def toNanos (t : Timespec) : Int := t.sec * NSEC_PER_SEC + t.nsec

/-- A normalized timestamp: the nanosecond field lies in [0, 10^9), as
`clock_gettime` guarantees. -/
def Timespec.valid (t : Timespec) : Prop :=
  0 ≤ t.nsec ∧ t.nsec < NSEC_PER_SEC

instance (t : Timespec) : Decidable t.valid :=
  decidable_of_iff (0 ≤ t.nsec ∧ t.nsec < NSEC_PER_SEC) Iff.rfl

/-- Embedding of `diff_nsecs` (corelock.c lines 29-39): signed nanosecond
difference `newer - older` with an explicit sub-second borrow. -/
def diff_nsecs (newer older : Timespec) : Int :=
  let diff_sec : Int := newer.sec - older.sec
  let diff_nsec : Int := newer.nsec - older.nsec
  if diff_nsec < 0 then
    (diff_sec - 1) * NSEC_PER_SEC + (diff_nsec + NSEC_PER_SEC)
  else
    diff_sec * NSEC_PER_SEC + diff_nsec

/-- Embedding of the deadline advance of `thread_fn` (corelock.c lines
89-91): `tv_nsec += period_ns; tv_sec += tv_nsec / 1e9; tv_nsec %= 1e9`.
In the C code `tv_nsec` is non-negative and `period_ns` is a `size_t`, so
the truncating C division and modulus agree with the Euclidean `/` and `%`
used here. -/
def advance_tick (t : Timespec) (period_ns : Int) : Timespec :=
  let n : Int := t.nsec + period_ns
  { sec := t.sec + n / NSEC_PER_SEC, nsec := n % NSEC_PER_SEC }

/-- The deadline variable after `n` iterations of the advance (the loop in
`thread_fn` performs exactly one advance per iteration, before invoking the
task). -/
def advanceN (t : Timespec) (p : Int) : Nat → Timespec
  | 0 => t
  | n + 1 => advance_tick (advanceN t p n) p

/-- Embedding of `cl_status_t` (corelock.h): API status and error codes. -/
inductive cl_status_t
  | CL_OK
  | CL_ERR_START
  | CL_ERR_BUSY
  | CL_ERR_JOIN
  | CL_ERR_TERM
deriving DecidableEq, Repr

/-- Embedding of `cl_overrun_bh` (corelock.h): the overrun-policy enum of
the configuration. -/
inductive cl_overrun_bh
  | CL_OVERRUN_BH_STOP
  | CL_OVERRUN_BH_NOTIFY
  | CL_OVERRUN_BH_IGNORE
deriving DecidableEq, Repr

/-- Embedding of `cl_attr_t` (corelock.h): the configuration record copied
into the instance at creation.  `cpu_mask`/`cpu_mask_size` are an opaque
caller-owned affinity descriptor and are not modelled.  `stop_time` is a C
`double` holding a whole-second count or -1; it is modelled as an integer
count of seconds, which loses nothing because (as proved below) the worker
loop never reads it. -/
structure cl_attr_t where
  period_us : Nat
  priority : Int
  or_bh : cl_overrun_bh
  sched_policy : Int
  stop_time : Int
  start_align : Int
deriving DecidableEq, Repr

/-- The local variable `periond_ns` of `thread_fn` (corelock.c line 83,
source spelling kept): the configured period converted to nanoseconds. -/
def periond_ns (a : cl_attr_t) : Int := (a.period_us : Int) * 1000

/-- The three resolved overrun-handler functions an instance's
`overrun_handler` pointer can be bound to by `cl_inst_create`. -/
inductive OverrunHandler
  | notify
  | ignore
  | stopPolicy
deriving DecidableEq, Repr

/-- Embedding of `struct cl_instanse_s` (corelock.c lines 15-27, source
spelling kept in the name): configuration snapshot, the three atomic flags,
the start timestamp, and the bound overrun-handler function pointer
(`Option` models the NULL the `calloc` zero-fill leaves when no `switch`
case assigns it).  The task callback and its argument live in the loop
environment below; the pthread attribute block and thread id are opaque OS
handles and are not modelled. -/
structure Inst where
  attrs : cl_attr_t
  stop_flag : Bool
  is_joined : Bool
  is_finished : Bool
  start_time : Timespec
  overrun_handler : Option OverrunHandler
deriving DecidableEq, Repr

/-- Microsecond total computed by `seconds_from_start` (corelock.c lines
41-53) before its final display-only conversion to a `double` number of
seconds.  The diagnostic contract is stated on this exact integer; the
floating-point division by 10^6 only formats it. -/
def seconds_from_start_us (inst : Inst) (curr : Timespec) : Int :=
  let diff_sec : Int := curr.sec - inst.start_time.sec
  let diff_nsec : Int := curr.nsec - inst.start_time.nsec
  if diff_nsec < 0 then
    (diff_sec - 1) * 1000000 + (diff_nsec + NSEC_PER_SEC) / 1000
  else
    diff_sec * 1000000 + diff_nsec / 1000

/-- One structured diagnostic line emitted to stderr by
`overrun_handler_notify`: the elapsed time since the loop's start and the
overshoot in nanoseconds. -/
structure Diag where
  elapsed_us : Int
  overhead_ns : Int
deriving DecidableEq, Repr

/-- Embedding of `overrun_handler_notify` (corelock.c lines 55-62): emits
one diagnostic, changes no instance state. -/
def overrun_handler_notify (inst : Inst) (curr next : Timespec) :
    Inst × List Diag :=
  (inst, [{ elapsed_us := seconds_from_start_us inst curr,
            overhead_ns := diff_nsecs curr next }])

/-- Embedding of `overrun_handler_stop` (corelock.c lines 64-69): performs
the Notify effect, then stores 1 into `stop_flag`.  The extra plain-text
"Terminating..." stderr line carries no data and is not modelled. -/
def overrun_handler_stop (inst : Inst) (curr next : Timespec) :
    Inst × List Diag :=
  let nd := overrun_handler_notify inst curr next
  ({ nd.1 with stop_flag := true }, nd.2)

/-- Embedding of `overrun_handler_ignore` (corelock.c lines 71-78): no
effect at all. -/
def overrun_handler_ignore (inst : Inst) (curr next : Timespec) :
    Inst × List Diag :=
  (inst, [])

/-- Dispatch through a (non-null) resolved handler pointer. -/
def run_handler : OverrunHandler → Inst → Timespec → Timespec → Inst × List Diag
  | .notify => overrun_handler_notify
  | .ignore => overrun_handler_ignore
  | .stopPolicy => overrun_handler_stop

/-- Environment of one worker-thread execution, indexed by loop iteration
`k` (each iteration makes exactly one task invocation and at most one clock
read): `taskRet k` is the `long` the task callback returns at iteration `k`,
`clock k` the `CLOCK_MONOTONIC` reading taken after that invocation, and
`extStop k` whether an external `cl_inst_stop` store has been delivered by
the time of the flag check at the top of iteration `k`. -/
structure LoopEnv where
  taskRet : Nat → Int
  clock : Nat → Timespec
  extStop : Nat → Bool

/-- Observable outcome of one execution of the loop body of `thread_fn`
(corelock.c lines 89-101), entered after the `stop_flag` check passed:
the instance state and deadline afterwards, the value left in the local
`res`, the diagnostics emitted, the arguments of the overrun-handler call
if one was made, the absolute deadline passed to `clock_nanosleep` if the
iteration slept, and whether the `goto fn_out` exit was taken. -/
structure IterResult where
  inst : Inst
  next_tick : Timespec
  res : Int
  diags : List Diag
  handler_call : Option (Timespec × Timespec)
  sleep_until : Option Timespec
  exited : Bool
deriving DecidableEq, Repr

/-- One execution of the loop body of `thread_fn` at iteration `k`, with
the bound handler `h`, instance state `inst` and deadline variable `nt0`:
advance the deadline by one period, invoke the task (non-zero return exits),
read the clock, and either dispatch the overrun handler (no sleep) or sleep
until the absolute deadline. -/
def iter_body (env : LoopEnv) (h : OverrunHandler) (k : Nat) (inst : Inst)
    (nt0 : Timespec) : IterResult :=
  let nt := advance_tick nt0 (periond_ns inst.attrs)
  let r := env.taskRet k
  if r ≠ 0 then
    { inst := inst, next_tick := nt, res := r, diags := [],
      handler_call := none, sleep_until := none, exited := true }
  else
    let curr := env.clock k
    if diff_nsecs curr nt > 0 then
      let hr := run_handler h inst curr nt
      { inst := hr.1, next_tick := nt, res := r, diags := hr.2,
        handler_call := some (curr, nt), sleep_until := none, exited := false }
    else
      { inst := inst, next_tick := nt, res := r, diags := [],
        handler_call := none, sleep_until := some nt, exited := false }

/-- Outcome of a terminated run of `thread_fn`: the shared instance state at
`fn_out` (with `is_finished` stored), the `void *` value the thread returns
(what `pthread_join` hands to `cl_inst_join`), the number of task
invocations performed, the diagnostics emitted, and whether the exit was the
`goto fn_out` on a non-zero task return (`true`) or the `while` condition
observing `stop_flag` (`false`). -/
structure RunResult where
  inst : Inst
  res : Int
  invocations : Nat
  diags : List Diag
  exit_via_task : Bool
deriving DecidableEq, Repr

/-- Fuel-indexed embedding of the `while` loop of `thread_fn` (corelock.c
lines 88-102) from iteration `k` onward: deliver any pending external stop
store, check `stop_flag` (acquire load at the top of every iteration), and
either exit to `fn_out` or run the body.  `none` means the loop is still
running after `fuel` checks.  `res` is the local `res` variable, `ds` the
diagnostics emitted so far. -/
def runLoopAux (env : LoopEnv) (h : OverrunHandler) :
    Nat → Nat → Inst → Timespec → Int → List Diag → Option RunResult
  | 0, _, _, _, _, _ => none
  | fuel + 1, k, inst, nt, res, ds =>
    let inst1 := if env.extStop k then { inst with stop_flag := true } else inst
    if inst1.stop_flag then
      some { inst := { inst1 with is_finished := true }, res := res,
             invocations := k, diags := ds, exit_via_task := false }
    else
      let it := iter_body env h k inst1 nt
      if it.exited then
        some { inst := { it.inst with is_finished := true }, res := it.res,
               invocations := k + 1, diags := ds ++ it.diags,
               exit_via_task := true }
      else
        runLoopAux env h fuel (k + 1) it.inst it.next_tick it.res
          (ds ++ it.diags)

/-- Embedding of `thread_fn` (corelock.c lines 80-107): record the start
timestamp, initialize the deadline variable `next_tick` to it and the local
`res` to NULL, then run the loop.  `h` is the handler function the
instance's `overrun_handler` pointer is bound to; `cl_inst_create` always
binds one for every enum value (proved below), so the indirect call never
goes through NULL. -/
def thread_fn (env : LoopEnv) (h : OverrunHandler) (inst : Inst)
    (start : Timespec) (fuel : Nat) : Option RunResult :=
  runLoopAux env h fuel 0 { inst with start_time := start } start 0 []

/-- The handler binding performed by the `switch` of `cl_inst_create`
(corelock.c lines 128-138): the pointer starts NULL from the `calloc`
zero-fill and each enum case assigns one of the three handler functions. -/
def bind_overrun_handler : cl_overrun_bh → Option OverrunHandler
  | .CL_OVERRUN_BH_NOTIFY => some .notify
  | .CL_OVERRUN_BH_IGNORE => some .ignore
  | .CL_OVERRUN_BH_STOP => some .stopPolicy

/-- Embedding of `cl_inst_create` (corelock.c lines 109-141): zero-filled
instance, configuration snapshot copied in, overrun handler bound from the
enum.  Allocation is assumed to succeed (the NULL-on-allocation-failure
branch is not modelled); the pthread attribute setup only configures opaque
OS scheduling state and is not modelled. -/
def cl_inst_create (attrs : cl_attr_t) : Inst :=
  { attrs := attrs, stop_flag := false, is_joined := false,
    is_finished := false, start_time := { sec := 0, nsec := 0 },
    overrun_handler := bind_overrun_handler attrs.or_bh }

/-- Embedding of `cl_inst_stop` (corelock.c lines 150-153): release store
of 1 into `stop_flag`, always CL_OK.  Its asynchronous delivery to the
worker is modelled by `LoopEnv.extStop`. -/
def cl_inst_stop (inst : Inst) : Inst × cl_status_t :=
  ({ inst with stop_flag := true }, .CL_OK)

/-- Embedding of `cl_inst_is_stopped` (corelock.c lines 155-157): acquire
load of `is_finished`. -/
def cl_inst_is_stopped (inst : Inst) : Bool := inst.is_finished

/-- Embedding of a successful `cl_inst_join` (corelock.c lines 159-167) on
a worker run that terminated with outcome `r`: the thread's return value is
written through the out pointer when one is supplied (`wantRet`), and
`is_joined` is stored.  The CL_ERR_JOIN branch models a `pthread_join`
failure of the OS handle and is not reachable for a terminated run. -/
def cl_inst_join (r : RunResult) (wantRet : Bool) :
    Inst × Option Int × cl_status_t :=
  ({ r.inst with is_joined := true },
   if wantRet then some r.res else none, .CL_OK)

/-- Result of `cl_inst_destroy`: either the early CL_ERR_BUSY return, which
touches nothing (the unchanged instance is carried), or the release of the
instance's resources (`pthread_attr_destroy` + `free`). -/
inductive DestroyResult
  | busy (inst : Inst)
  | freed
deriving DecidableEq, Repr

/-- Embedding of `cl_inst_destroy` (corelock.c lines 175-182): relaxed load
of `is_joined`; CL_ERR_BUSY with nothing freed when it is still 0, otherwise
release everything and return CL_OK. -/
def cl_inst_destroy (inst : Inst) : DestroyResult × cl_status_t :=
  if inst.is_joined = false then (.busy inst, .CL_ERR_BUSY)
  else (.freed, .CL_OK)

/-- Concrete configuration used by the witness instantiations below. -/
def attrsW : cl_attr_t :=
  { period_us := 1000, priority := 80, or_bh := .CL_OVERRUN_BH_IGNORE,
    sched_policy := 1, stop_time := -1, start_align := 0 }

/-- Concrete freshly created instance used by the witness instantiations
below (the state `cl_inst_create attrsW` produces). -/
def instW : Inst :=
  { attrs := attrsW, stop_flag := false, is_joined := false,
    is_finished := false, start_time := { sec := 0, nsec := 0 },
    overrun_handler := some .ignore }

/-- Concrete environment for witnesses: the task always returns 0, the
clock always reads 2 ms (past the first 1 ms deadline of `attrsW`), and no
external stop is ever delivered. -/
def envOver : LoopEnv :=
  { taskRet := fun _ => 0,
    clock := fun _ => { sec := 0, nsec := 2000000 },
    extStop := fun _ => false }

/-- Concrete environment for witnesses: the task always returns 0, the
clock stands still at the start instant (never an overrun), and no external
stop is ever delivered. -/
def envZero : LoopEnv :=
  { taskRet := fun _ => 0,
    clock := fun _ => { sec := 0, nsec := 0 },
    extStop := fun _ => false }

/-- Concrete environment for witnesses: the task returns 7 on its first
invocation and 0 afterwards; no overruns, no external stop. -/
def envRet7 : LoopEnv :=
  { taskRet := fun k => if k = 0 then 7 else 0,
    clock := fun _ => { sec := 0, nsec := 0 },
    extStop := fun _ => false }

/-!  Theorems.  First the general helper lemmas, then one theorem (plus
witness where hypotheses are present) for each specification claim. -/

/-- Helper: `diff_nsecs` computes the exact difference of the total
nanosecond values, with no assumption on the fields (the borrow branch is an
algebraic identity). -/
theorem diff_nsecs_toNanos (a b : Timespec) :
    diff_nsecs a b = toNanos a - toNanos b := by
  unfold diff_nsecs toNanos
  simp only []
  split <;> ring

/-- Helper: a single advance adds exactly `p` nanoseconds to the total
value. -/
theorem advance_tick_toNanos (t : Timespec) (p : Int) :
    toNanos (advance_tick t p) = toNanos t + p := by
  unfold advance_tick toNanos
  have h : NSEC_PER_SEC * ((t.nsec + p) / NSEC_PER_SEC) + (t.nsec + p) % NSEC_PER_SEC
      = t.nsec + p := Int.ediv_add_emod _ _
  simp only
  linarith [h]

/-- Helper: a single advance renormalizes the nanosecond field into
[0, 10^9). -/
theorem advance_tick_valid (t : Timespec) (p : Int) :
    (advance_tick t p).valid := by
  unfold advance_tick Timespec.valid
  refine ⟨Int.emod_nonneg _ (by norm_num [NSEC_PER_SEC]), ?_⟩
  exact Int.emod_lt_of_pos _ (by norm_num [NSEC_PER_SEC])

/-- C9: for all timestamps `a` and `b` with nanosecond fields in
[0, 10^9), `diff_nsecs a b` equals the exact signed difference
`(a.sec*10^9 + a.nsec) - (b.sec*10^9 + b.nsec)`, the sub-second borrow
handled correctly, including when the result is negative. -/
theorem diff_nsecs_correct (a b : Timespec) (ha : a.valid) (hb : b.valid) :
    diff_nsecs a b
      = (a.sec * 1000000000 + a.nsec) - (b.sec * 1000000000 + b.nsec) :=
  diff_nsecs_toNanos a b

/-- Witness for C9 at a pair of concrete timestamps whose difference is
negative and needs the borrow. -/
theorem diff_nsecs_correct_w :
    Timespec.valid { sec := 2, nsec := 999999999 } ∧
    Timespec.valid { sec := 5, nsec := 1000 } ∧
    diff_nsecs { sec := 2, nsec := 999999999 } { sec := 5, nsec := 1000 }
      = (2 * 1000000000 + 999999999) - (5 * 1000000000 + 1000) :=
  ⟨by decide, by decide,
   diff_nsecs_correct { sec := 2, nsec := 999999999 } { sec := 5, nsec := 1000 }
     (by decide) (by decide)⟩

/-- C1: for every period `P > 0` (microseconds, hence `periond_ns a`
nanoseconds), the worker's absolute deadline variable after `n` advances
equals the start timestamp plus exactly `n * P` nanoseconds, the nanosecond
overflow carried into the seconds field and the nanosecond field kept in
[0, 10^9) — so non-overrun invocations are spaced exactly one period apart
from the fixed start with no cumulative drift. -/
theorem fixed_phase_deadline (a : cl_attr_t) (hp : 0 < a.period_us)
    (t : Timespec) (ht : t.valid) (n : Nat) :
    (advanceN t (periond_ns a) n).valid ∧
    toNanos (advanceN t (periond_ns a) n) = toNanos t + n * periond_ns a := by
  induction n with
  | zero => simpa [advanceN] using ht
  | succ m ih =>
    refine ⟨advance_tick_valid _ _, ?_⟩
    have h2 := advance_tick_toNanos (advanceN t (periond_ns a) m) (periond_ns a)
    rw [advanceN, h2, ih.2]
    push_cast
    ring

/-- Witness for C1: three advances of a 1000 µs period from a start
timestamp whose nanosecond field is about to overflow. -/
theorem fixed_phase_deadline_w :
    0 < attrsW.period_us ∧
    Timespec.valid { sec := 0, nsec := 999999999 } ∧
    ((advanceN { sec := 0, nsec := 999999999 } (periond_ns attrsW) 3).valid ∧
     toNanos (advanceN { sec := 0, nsec := 999999999 } (periond_ns attrsW) 3)
       = toNanos { sec := 0, nsec := 999999999 } + 3 * periond_ns attrsW) :=
  ⟨by decide, by decide,
   fixed_phase_deadline attrsW (by decide) { sec := 0, nsec := 999999999 }
     (by decide) 3⟩

/-- C10: for every configuration whose overrun-policy field is one of the
three enum values, `cl_inst_create` binds a non-null overrun handler to the
instance, so the worker's indirect call through the handler pointer on an
overrun is never a call through a null pointer. -/
theorem create_binds_handler (attrs : cl_attr_t) :
    ∃ h, (cl_inst_create attrs).overrun_handler = some h := by
  cases hbh : attrs.or_bh
  · exact ⟨.stopPolicy, by simp [cl_inst_create, bind_overrun_handler, hbh]⟩
  · exact ⟨.notify, by simp [cl_inst_create, bind_overrun_handler, hbh]⟩
  · exact ⟨.ignore, by simp [cl_inst_create, bind_overrun_handler, hbh]⟩

/-- C7: `cl_inst_destroy` called while `is_joined` is false always returns
CL_ERR_BUSY and leaves the instance fully unchanged with nothing freed;
called after a successful join (`is_joined` true) it always succeeds and
releases the instance's resources. -/
theorem destroy_gated_on_join (inst : Inst) :
    (inst.is_joined = false →
      cl_inst_destroy inst = (.busy inst, .CL_ERR_BUSY)) ∧
    (inst.is_joined = true →
      cl_inst_destroy inst = (.freed, .CL_OK)) := by
  constructor <;> intro hj <;> simp [cl_inst_destroy, hj]

/-- Witness for C7: a not-yet-joined instance is refused untouched, and the
same instance with `is_joined` set is freed. -/
theorem destroy_gated_on_join_w :
    cl_inst_destroy instW = (.busy instW, .CL_ERR_BUSY) ∧
    cl_inst_destroy { instW with is_joined := true } = (.freed, .CL_OK) :=
  ⟨(destroy_gated_on_join instW).1 rfl,
   (destroy_gated_on_join { instW with is_joined := true }).2 rfl⟩

/-- C5: per iteration, after the task returns zero, the worker invokes the
bound overrun policy with arguments (current time, advanced deadline) if and
only if the current time is strictly past the advanced deadline, in which
case no sleep is performed; otherwise it performs an absolute-time sleep
until the deadline and the policy is not invoked.  Finishing exactly at the
deadline is not an overrun.  In neither case does the iteration itself exit
the loop. -/
theorem overrun_detection_exact (env : LoopEnv) (h : OverrunHandler) (k : Nat)
    (inst : Inst) (nt0 : Timespec) (hret : env.taskRet k = 0) :
    ((iter_body env h k inst nt0).handler_call
        = some (env.clock k, advance_tick nt0 (periond_ns inst.attrs))
      ↔ toNanos (env.clock k)
          > toNanos (advance_tick nt0 (periond_ns inst.attrs))) ∧
    (toNanos (env.clock k) > toNanos (advance_tick nt0 (periond_ns inst.attrs)) →
      (iter_body env h k inst nt0).sleep_until = none) ∧
    (toNanos (env.clock k) ≤ toNanos (advance_tick nt0 (periond_ns inst.attrs)) →
      (iter_body env h k inst nt0).handler_call = none ∧
      (iter_body env h k inst nt0).sleep_until
        = some (advance_tick nt0 (periond_ns inst.attrs))) ∧
    (iter_body env h k inst nt0).exited = false := by
  have hd : diff_nsecs (env.clock k) (advance_tick nt0 (periond_ns inst.attrs))
      = toNanos (env.clock k)
        - toNanos (advance_tick nt0 (periond_ns inst.attrs)) :=
    diff_nsecs_toNanos _ _
  by_cases hc : toNanos (env.clock k)
      > toNanos (advance_tick nt0 (periond_ns inst.attrs))
  · have hpos : diff_nsecs (env.clock k)
        (advance_tick nt0 (periond_ns inst.attrs)) > 0 := by
      rw [hd]; omega
    refine ⟨?_, fun _ => ?_, fun hle => absurd hc (by omega), ?_⟩ <;>
      simp [iter_body, hret, hpos, hc]
  · have hnpos : ¬ diff_nsecs (env.clock k)
        (advance_tick nt0 (periond_ns inst.attrs)) > 0 := by
      rw [hd]; omega
    refine ⟨?_, fun hgt => absurd hgt hc, fun _ => ?_, ?_⟩ <;>
      simp [iter_body, hret, hnpos, hc]

/-- Witness for C5: period 1000 µs from deadline base (0,0); the clock
reads 2 ms, strictly past the 1 ms deadline, so the overrun branch must be
reported. -/
theorem overrun_detection_exact_w :
    envOver.taskRet 0 = 0 ∧
    ((iter_body envOver .ignore 0 instW { sec := 0, nsec := 0 }).handler_call
      = some (envOver.clock 0,
          advance_tick { sec := 0, nsec := 0 } (periond_ns instW.attrs))
      ↔ toNanos (envOver.clock 0)
          > toNanos (advance_tick { sec := 0, nsec := 0 }
              (periond_ns instW.attrs))) :=
  ⟨rfl,
   (overrun_detection_exact envOver .ignore 0 instW
     { sec := 0, nsec := 0 } rfl).1⟩

/-- C6: once the stop-requested flag is true (set internally or delivered
by an external `cl_inst_stop`) by the check at the top of iteration `k`,
the loop exits right there: the run terminates having performed exactly the
`k` task invocations of the earlier iterations — no further invocation —
the exit is via the `while` condition, and `cl_inst_is_stopped` then
observes true.  A stop request landing mid-iteration is delivered at the
next top-of-loop check, so at most the one in-flight invocation can follow
it. -/
theorem stop_halts_loop (env : LoopEnv) (h : OverrunHandler) (inst : Inst)
    (nt : Timespec) (res : Int) (ds : List Diag) (fuel k : Nat)
    (hstop : inst.stop_flag = true ∨ env.extStop k = true) :
    ∃ r, runLoopAux env h (fuel + 1) k inst nt res ds = some r ∧
      r.invocations = k ∧ r.exit_via_task = false ∧
      cl_inst_is_stopped r.inst = true := by
  refine ⟨{ inst := { (if env.extStop k then { inst with stop_flag := true }
                       else inst) with is_finished := true },
            res := res, invocations := k, diags := ds,
            exit_via_task := false }, ?_, rfl, rfl, rfl⟩
  rcases hstop with hs | hs
  · by_cases he : env.extStop k <;> simp [runLoopAux, he, hs]
  · simp [runLoopAux, hs]

/-- Witness for C6: a worker whose stop flag is already set exits at the
very next check with zero invocations. -/
theorem stop_halts_loop_w :
    ({ instW with stop_flag := true } : Inst).stop_flag = true ∧
    (∃ r, runLoopAux envZero .ignore (4 + 1) 0
        { instW with stop_flag := true } { sec := 0, nsec := 0 } 0 []
        = some r ∧
      r.invocations = 0 ∧ r.exit_via_task = false ∧
      cl_inst_is_stopped r.inst = true) :=
  ⟨rfl,
   stop_halts_loop envZero .ignore { instW with stop_flag := true }
     { sec := 0, nsec := 0 } 0 [] 4 0 (Or.inl rfl)⟩

/-- C3: under the Stop overrun policy, a single detected overrun at
iteration `k` (task returned zero, current time strictly past the advanced
deadline, no external stop ever delivered) makes the bound handler perform
the Notify diagnostic effect and set the stop-requested flag, and the loop
then exits at the very next top-of-loop check: the run terminates with
exactly `k + 1` invocations, `stop_flag` true, exit via the `while`
condition, and only the Notify diagnostic appended. -/
theorem stop_policy_overrun_exits (env : LoopEnv) (inst : Inst)
    (nt : Timespec) (res : Int) (ds : List Diag) (fuel k : Nat)
    (hsf : inst.stop_flag = false)
    (hext : ∀ j, env.extStop j = false)
    (hret : env.taskRet k = 0)
    (hover : diff_nsecs (env.clock k)
        (advance_tick nt (periond_ns inst.attrs)) > 0) :
    runLoopAux env .stopPolicy (fuel + 2) k inst nt res ds
      = some { inst := { inst with stop_flag := true, is_finished := true },
               res := 0, invocations := k + 1,
               diags := ds ++ (overrun_handler_notify inst (env.clock k)
                   (advance_tick nt (periond_ns inst.attrs))).2,
               exit_via_task := false } := by
  show runLoopAux env .stopPolicy (fuel + 1 + 1) k inst nt res ds = _
  simp [runLoopAux, iter_body, run_handler, overrun_handler_stop,
    overrun_handler_notify, hsf, hext, hret, hover]

/-- Witness for C3: a Stop-policy worker at iteration 0, deadline base
(0,0), period 1000 µs, with the clock at 2 ms — one overrun, then exit with
the flag set and one invocation. -/
theorem stop_policy_overrun_exits_w :
    instW.stop_flag = false ∧ (∀ j, envOver.extStop j = false) ∧
    envOver.taskRet 0 = 0 ∧
    diff_nsecs (envOver.clock 0)
      (advance_tick { sec := 0, nsec := 0 } (periond_ns instW.attrs)) > 0 ∧
    runLoopAux envOver .stopPolicy (0 + 2) 0 instW { sec := 0, nsec := 0 } 0 []
      = some { inst := { instW with stop_flag := true, is_finished := true },
               res := 0, invocations := 0 + 1,
               diags := [] ++ (overrun_handler_notify instW (envOver.clock 0)
                   (advance_tick { sec := 0, nsec := 0 }
                     (periond_ns instW.attrs))).2,
               exit_via_task := false } :=
  ⟨rfl, fun j => rfl, rfl, by decide,
   stop_policy_overrun_exits envOver instW { sec := 0, nsec := 0 } 0 [] 0 0
     rfl (fun j => rfl) rfl (by decide)⟩

/-- C8: under the Ignore and Notify overrun policies, a detected overrun
changes no instance flags and does not make the loop exit: the run from the
overrunning iteration is exactly the run from the next iteration with the
same, unchanged instance, the advanced deadline and the emitted diagnostics
— no diagnostics under Ignore, exactly the one Notify diagnostic under
Notify. -/
theorem ignore_notify_frame (env : LoopEnv) (h : OverrunHandler) (inst : Inst)
    (nt : Timespec) (res : Int) (ds : List Diag) (fuel k : Nat)
    (hh : h = .ignore ∨ h = .notify)
    (hsf : inst.stop_flag = false)
    (hext : env.extStop k = false)
    (hret : env.taskRet k = 0)
    (hover : diff_nsecs (env.clock k)
        (advance_tick nt (periond_ns inst.attrs)) > 0) :
    ∃ d : List Diag,
      runLoopAux env h (fuel + 2) k inst nt res ds
        = runLoopAux env h (fuel + 1) (k + 1) inst
            (advance_tick nt (periond_ns inst.attrs)) 0 (ds ++ d) ∧
      (h = .ignore → d = []) ∧
      (h = .notify → d = (overrun_handler_notify inst (env.clock k)
          (advance_tick nt (periond_ns inst.attrs))).2) := by
  rcases hh with hh | hh <;> subst hh
  · have heq : runLoopAux env .ignore (fuel + 1 + 1) k inst nt res ds
        = runLoopAux env .ignore (fuel + 1) (k + 1) inst
            (advance_tick nt (periond_ns inst.attrs)) 0 (ds ++ []) := by
      simp [runLoopAux, iter_body, run_handler, overrun_handler_ignore,
        hsf, hext, hret, hover]
    exact ⟨[], heq, fun _ => rfl, fun hc => absurd hc (by decide)⟩
  · have heq : runLoopAux env .notify (fuel + 1 + 1) k inst nt res ds
        = runLoopAux env .notify (fuel + 1) (k + 1) inst
            (advance_tick nt (periond_ns inst.attrs)) 0
            (ds ++ (overrun_handler_notify inst (env.clock k)
              (advance_tick nt (periond_ns inst.attrs))).2) := by
      simp [runLoopAux, iter_body, run_handler, overrun_handler_notify,
        hsf, hext, hret, hover]
    exact ⟨(overrun_handler_notify inst (env.clock k)
        (advance_tick nt (periond_ns inst.attrs))).2, heq,
      fun hc => absurd hc (by decide), fun _ => rfl⟩

/-- Witness for C8: a Notify-policy worker overrunning at iteration 0
continues into iteration 1 with unchanged flags and one diagnostic. -/
theorem ignore_notify_frame_w :
    (OverrunHandler.notify = OverrunHandler.ignore ∨
       OverrunHandler.notify = OverrunHandler.notify) ∧
    instW.stop_flag = false ∧ envOver.extStop 0 = false ∧
    envOver.taskRet 0 = 0 ∧
    diff_nsecs (envOver.clock 0)
      (advance_tick { sec := 0, nsec := 0 } (periond_ns instW.attrs)) > 0 ∧
    (∃ d : List Diag,
      runLoopAux envOver .notify (2 + 2) 0 instW { sec := 0, nsec := 0 } 0 []
        = runLoopAux envOver .notify (2 + 1) 1 instW
            (advance_tick { sec := 0, nsec := 0 } (periond_ns instW.attrs))
            0 ([] ++ d) ∧
      (OverrunHandler.notify = OverrunHandler.ignore → d = []) ∧
      (OverrunHandler.notify = OverrunHandler.notify →
        d = (overrun_handler_notify instW (envOver.clock 0)
          (advance_tick { sec := 0, nsec := 0 }
            (periond_ns instW.attrs))).2)) :=
  ⟨Or.inr rfl, rfl, rfl, rfl, by decide,
   ignore_notify_frame envOver .notify instW { sec := 0, nsec := 0 } 0 [] 2 0
     (Or.inr rfl) rfl rfl rfl (by decide)⟩

/-- Helper for C4: with the Ignore policy bound, a task that always returns
zero and no external stop request, the `while` loop of `thread_fn` never
exits, whatever the instance's configuration — in particular whatever its
`stop_time` field holds — and however much fuel it is given. -/
theorem runLoopAux_ignore_none (env : LoopEnv)
    (hext : ∀ j, env.extStop j = false)
    (hret : ∀ j, env.taskRet j = 0) :
    ∀ fuel k inst nt res ds, inst.stop_flag = false →
      runLoopAux env .ignore fuel k inst nt res ds = none := by
  intro fuel
  induction fuel with
  | zero => intro k inst nt res ds hsf; rfl
  | succ n ih =>
    intro k inst nt res ds hsf
    by_cases hc : diff_nsecs (env.clock k)
        (advance_tick nt (periond_ns inst.attrs)) > 0
    · simp [runLoopAux, iter_body, run_handler, overrun_handler_ignore,
        hext, hsf, hret, hc]
      exact ih _ _ _ _ _ hsf
    · simp [runLoopAux, iter_body, run_handler, overrun_handler_ignore,
        hext, hsf, hret, hc]
      exact ih _ _ _ _ _ hsf

/-- C4 (code-bug evidence): the header documents `stop_time` as the
duration after which the task stops (-1 meaning run indefinitely), but
`thread_fn` never reads the field.  Concretely: with the Ignore policy, a
task that always returns zero and no stop request, `thread_fn` is still
running after any number of iterations, for every configuration — in
particular for configurations whose `stop_time` is present (non-negative)
and long since elapsed on the environment's clock.  The claimed stop-after
behavior therefore does not occur. -/
theorem loop_ignores_stop_time (env : LoopEnv) (inst : Inst)
    (start : Timespec)
    (hsf : inst.stop_flag = false)
    (hext : ∀ j, env.extStop j = false)
    (hret : ∀ j, env.taskRet j = 0) :
    ∀ fuel, thread_fn env .ignore inst start fuel = none := fun fuel =>
  runLoopAux_ignore_none env hext hret fuel 0
    { inst with start_time := start } start 0 [] hsf

/-- Witness for C4: an instance whose `stop_time` is 5 (present and
non-negative) with a 1000 µs period and always-zero task on a clock already
at 2 ms keeps running after 6 loop checks. -/
theorem loop_ignores_stop_time_w :
    ({ instW with attrs := { attrsW with stop_time := 5 } } : Inst).stop_flag
        = false ∧
    (∀ j, envOver.extStop j = false) ∧ (∀ j, envOver.taskRet j = 0) ∧
    thread_fn envOver .ignore
      { instW with attrs := { attrsW with stop_time := 5 } }
      { sec := 0, nsec := 0 } 6 = none :=
  ⟨rfl, fun j => rfl, fun j => rfl,
   loop_ignores_stop_time envOver
     { instW with attrs := { attrsW with stop_time := 5 } }
     { sec := 0, nsec := 0 } rfl (fun j => rfl) (fun j => rfl) 6⟩

/-- Helper: every branch of the loop body leaves the last task return value
in `res`. -/
theorem iter_body_res (env : LoopEnv) (h : OverrunHandler) (k : Nat)
    (inst : Inst) (nt : Timespec) :
    (iter_body env h k inst nt).res = env.taskRet k := by
  by_cases hk : env.taskRet k = 0
  · by_cases hc : diff_nsecs (env.clock k)
        (advance_tick nt (periond_ns inst.attrs)) > 0 <;>
      simp [iter_body, hk, hc]
  · simp [iter_body, hk]

/-- Helper: the loop body takes the `goto fn_out` exit exactly when the
task returned non-zero. -/
theorem iter_body_exited (env : LoopEnv) (h : OverrunHandler) (k : Nat)
    (inst : Inst) (nt : Timespec) :
    (iter_body env h k inst nt).exited = true ↔ env.taskRet k ≠ 0 := by
  by_cases hk : env.taskRet k = 0
  · by_cases hc : diff_nsecs (env.clock k)
        (advance_tick nt (periond_ns inst.attrs)) > 0 <;>
      simp [iter_body, hk, hc]
  · simp [iter_body, hk]

/-- Helper for C2: inversion on a terminated run started with `res = 0`.
The invocation count never goes below the starting iteration; a `while`
condition exit leaves a zero result; and if the task returned non-zero at
any invocation `N` the run performed, the run stopped right there: exactly
`N + 1` invocations, exit via `goto fn_out`, and that return value as the
result. -/
theorem runLoopAux_exit_spec (env : LoopEnv) (h : OverrunHandler) :
    ∀ fuel k inst nt ds r,
      runLoopAux env h fuel k inst nt 0 ds = some r →
      k ≤ r.invocations ∧
      (r.exit_via_task = false → r.res = 0) ∧
      (∀ N, k ≤ N → N < r.invocations → env.taskRet N ≠ 0 →
        r.invocations = N + 1 ∧ r.exit_via_task = true ∧
        r.res = env.taskRet N) := by
  intro fuel
  induction fuel with
  | zero => intro k inst nt ds r hr; cases hr
  | succ n ih =>
    intro k inst nt ds r hr
    simp only [runLoopAux] at hr
    by_cases he : env.extStop k = true
    · rw [if_pos he] at hr
      rw [if_pos (show ({ inst with stop_flag := true } : Inst).stop_flag
          = true from rfl)] at hr
      have hA := Option.some.inj hr
      subst hA
      refine ⟨Nat.le_refl _, fun _ => rfl, ?_⟩
      intro N h1 h2 _
      have h2' : N < k := h2
      omega
    · rw [if_neg he] at hr
      by_cases hs : inst.stop_flag = true
      · rw [if_pos hs] at hr
        have hA := Option.some.inj hr
        subst hA
        refine ⟨Nat.le_refl _, fun _ => rfl, ?_⟩
        intro N h1 h2 _
        have h2' : N < k := h2
        omega
      · rw [if_neg hs] at hr
        by_cases hex : (iter_body env h k inst nt).exited = true
        · rw [if_pos hex] at hr
          have hkret : env.taskRet k ≠ 0 :=
            (iter_body_exited env h k inst nt).mp hex
          have hA := Option.some.inj hr
          subst hA
          refine ⟨(by omega : k ≤ k + 1), fun hcontra =>
            absurd (show (true : Bool) = false from hcontra) (by decide), ?_⟩
          intro N h1 h2 _
          have h2' : N < k + 1 := h2
          have hNk : N = k := by omega
          subst hNk
          exact ⟨rfl, rfl, iter_body_res env h N inst nt⟩
        · rw [if_neg hex] at hr
          have hk0 : env.taskRet k = 0 := by
            by_contra hne
            exact hex ((iter_body_exited env h k inst nt).mpr hne)
          rw [(iter_body_res env h k inst nt).trans hk0] at hr
          obtain ⟨h1, h2, h3⟩ := ih (k + 1) _ _ _ r hr
          refine ⟨by omega, h2, ?_⟩
          intro N hkN hNr hNret
          rcases Nat.eq_or_lt_of_le hkN with hEq | hLt
          · rw [← hEq] at hNret
            exact absurd hk0 hNret
          · exact h3 N hLt hNr hNret

/-- C2: if the task callback returns a non-zero value on some invocation
`N` that a terminated run performed, the worker loop performed no iteration
`N + 1` (the run has exactly `N + 1` invocations and exited via
`goto fn_out` immediately after that invocation), and a successful
`cl_inst_join` writes exactly that value into the caller's out parameter;
if the run instead exited because of a stop request (the `while`
condition), `cl_inst_join` reports a zero result. -/
theorem task_signal_exit (env : LoopEnv) (h : OverrunHandler) (inst : Inst)
    (start : Timespec) (fuel : Nat) (r : RunResult)
    (hrun : thread_fn env h inst start fuel = some r) :
    (∀ N, N < r.invocations → env.taskRet N ≠ 0 →
      r.invocations = N + 1 ∧ r.res = env.taskRet N ∧
      (cl_inst_join r true).2.1 = some (env.taskRet N)) ∧
    (r.exit_via_task = false → (cl_inst_join r true).2.1 = some 0) := by
  have hspec := runLoopAux_exit_spec env h fuel 0
    { inst with start_time := start } start [] r hrun
  refine ⟨fun N hN hNret => ?_, fun hf => ?_⟩
  · obtain ⟨he1, he2, he3⟩ := hspec.2.2 N (Nat.zero_le N) hN hNret
    exact ⟨he1, he3, by simp [cl_inst_join, he3]⟩
  · have h0 := hspec.2.1 hf
    simp [cl_inst_join, h0]

/-- Witness for C2: the task returns 7 on invocation 0; the run stops after
exactly one invocation and `cl_inst_join` hands 7 to the caller. -/
theorem task_signal_exit_w :
    thread_fn envRet7 .ignore instW { sec := 0, nsec := 0 } 3
      = some { inst := { instW with is_finished := true }, res := 7,
               invocations := 1, diags := [], exit_via_task := true } ∧
    (0 < 1 ∧ envRet7.taskRet 0 ≠ 0) ∧
    (({ inst := { instW with is_finished := true }, res := 7,
        invocations := 1, diags := [],
        exit_via_task := true } : RunResult).invocations = 0 + 1 ∧
      ({ inst := { instW with is_finished := true }, res := 7,
         invocations := 1, diags := [],
         exit_via_task := true } : RunResult).res = envRet7.taskRet 0 ∧
      (cl_inst_join ({ inst := { instW with is_finished := true }, res := 7,
                       invocations := 1, diags := [],
                       exit_via_task := true } : RunResult)
        true).2.1 = some (envRet7.taskRet 0)) :=
  ⟨by decide, ⟨by decide, by decide⟩,
   (task_signal_exit envRet7 .ignore instW { sec := 0, nsec := 0 } 3
       ({ inst := { instW with is_finished := true }, res := 7,
          invocations := 1, diags := [],
          exit_via_task := true } : RunResult)
       (by decide)).1 0 (by decide) (by decide)⟩

end Corelock
